import Mathlib

/-!
Verification development for the Yul `SimplificationRules` engine
(`libyul/optimiser/SimplificationRules.{h,cpp}`): a peephole rewrite-rule
matcher over Yul expressions, instantiated for a wide (256-bit, EVM
instruction) domain (`Pattern`) and a narrow (64-bit, eWasm builtin-name)
domain (`PatternEWasm`).

The embedding is shallow: expressions and patterns are inductive values,
the match-group table is an explicit association list threaded through
`matches`, and `assertThrow` faults are represented with `Except Fault`.
External collaborators that live outside the extracted slice
(syntactic equality, movability analysis, dialect builtin resolution,
AST deep copy) are modelled from the specification.
-/

namespace YulSimp

/-- EVM instructions are an enum of opcodes; we model them by their numeric
opcode value (`uint8_t(instruction)` is the bucket index in the C++ code). -/
abbrev Instruction := Nat

/-- Opcode of `dev::eth::Instruction::ADD`, the bucket probed by
`SimplificationRules::isInitialized`. -/
def ADDopcode : Instruction := 0x01

/-- `LiteralKind` from `libyul/AsmData.h`: the kind tag of a Yul literal. -/
inductive LiteralKind where
  | Number
  | Boolean
  | String
deriving DecidableEq, Repr

/-- Yul `Expression` (`libyul/AsmData.h`): a variant of functional
instruction, function call, identifier and literal.  Source locations are
not modelled (they never influence matching), and the literal value string
is modelled by the natural number it denotes. -/
inductive Expression where
  | FunctionalInstruction (instr : Instruction) (args : List Expression)
  | FunctionCall (name : String) (args : List Expression)
  | Identifier (name : String)
  | Literal (kind : LiteralKind) (value : Nat)

mutual

/-- Decidable structural equality of expressions (hand-rolled because the
nested `List Expression` defeats automatic deriving). -/
def Expression.decEq : (a b : Expression) → Decidable (a = b)
  | .FunctionalInstruction i as, .FunctionalInstruction j bs =>
    match Nat.decEq i j, Expression.decEqList as bs with
    | isTrue h1, isTrue h2 => isTrue (by rw [h1, h2])
    | isFalse h1, _ => isFalse (fun h => by injection h; contradiction)
    | _, isFalse h2 => isFalse (fun h => by injection h; contradiction)
  | .FunctionCall n as, .FunctionCall m bs =>
    match String.decEq n m, Expression.decEqList as bs with
    | isTrue h1, isTrue h2 => isTrue (by rw [h1, h2])
    | isFalse h1, _ => isFalse (fun h => by injection h; contradiction)
    | _, isFalse h2 => isFalse (fun h => by injection h; contradiction)
  | .Identifier n, .Identifier m =>
    match String.decEq n m with
    | isTrue h1 => isTrue (by rw [h1])
    | isFalse h1 => isFalse (fun h => by injection h; contradiction)
  | .Literal k v, .Literal k' v' =>
    match (inferInstance : Decidable (k = k')), Nat.decEq v v' with
    | isTrue h1, isTrue h2 => isTrue (by rw [h1, h2])
    | isFalse h1, _ => isFalse (fun h => by injection h; contradiction)
    | _, isFalse h2 => isFalse (fun h => by injection h; contradiction)
  | .FunctionalInstruction _ _, .FunctionCall _ _ => isFalse (fun h => Expression.noConfusion h)
  | .FunctionalInstruction _ _, .Identifier _ => isFalse (fun h => Expression.noConfusion h)
  | .FunctionalInstruction _ _, .Literal _ _ => isFalse (fun h => Expression.noConfusion h)
  | .FunctionCall _ _, .FunctionalInstruction _ _ => isFalse (fun h => Expression.noConfusion h)
  | .FunctionCall _ _, .Identifier _ => isFalse (fun h => Expression.noConfusion h)
  | .FunctionCall _ _, .Literal _ _ => isFalse (fun h => Expression.noConfusion h)
  | .Identifier _, .FunctionalInstruction _ _ => isFalse (fun h => Expression.noConfusion h)
  | .Identifier _, .FunctionCall _ _ => isFalse (fun h => Expression.noConfusion h)
  | .Identifier _, .Literal _ _ => isFalse (fun h => Expression.noConfusion h)
  | .Literal _ _, .FunctionalInstruction _ _ => isFalse (fun h => Expression.noConfusion h)
  | .Literal _ _, .FunctionCall _ _ => isFalse (fun h => Expression.noConfusion h)
  | .Literal _ _, .Identifier _ => isFalse (fun h => Expression.noConfusion h)

/-- Decidable equality of expression lists, mutual with `Expression.decEq`. -/
def Expression.decEqList : (a b : List Expression) → Decidable (a = b)
  | [], [] => isTrue rfl
  | [], _ :: _ => isFalse (fun h => List.noConfusion h)
  | _ :: _, [] => isFalse (fun h => List.noConfusion h)
  | a :: as, b :: bs =>
    match Expression.decEq a b, Expression.decEqList as bs with
    | isTrue h1, isTrue h2 => isTrue (by rw [h1, h2])
    | isFalse h1, _ => isFalse (fun h => by injection h; contradiction)
    | _, isFalse h2 => isFalse (fun h => by injection h; contradiction)

end

instance : DecidableEq Expression := Expression.decEq

/-- Parsing a literal value string into a 256-bit `u256` value
(`u256(literal.value.str())`): reduction modulo 2^256. -/
def u256parse (v : Nat) : Nat := v % 2 ^ 256

/-- Cast of a `u256` to `uint64_t` as done by `PatternEWasm::matches`:
reduction modulo 2^64. -/
def toUInt64 (v : Nat) : Nat := v % 2 ^ 64

/-- Modelled from the spec: the dialect / builtin-resolution collaborator
and the equivalence-analysis (movability) collaborator, both external to
the extracted slice (`Dialect`, `EVMDialect`, `SideEffectsCollector` are
not part of the source under analysis).
`evmBuiltin = some f` means the dialect is an `EVMDialect` (the
`dynamic_cast` in `instructionAndArguments` succeeds) and `f name`
describes `dialect->builtin(name)`: `none` if the name is not a builtin,
`some none` for a builtin without an associated instruction, and
`some (some i)` for a builtin backed by instruction `i`.
`builtin name` is the truth value of `_dialect.builtin(name)` used by the
eWasm paths.  `movable e` is the verdict of
`SideEffectsCollector(_dialect, e).movable()`. -/
structure Dialect where
  evmBuiltin : Option (String → Option (Option Instruction))
  builtin : String → Bool
  movable : Expression → Bool

/-- Modelled from the spec: `SyntacticallyEqual` (external collaborator)
decides structural identity of two expressions; with source locations
absent from the embedding this is plain structural equality. -/
def syntacticallyEqual (a b : Expression) : Bool := decide (a = b)

/-- `PatternKind` from `SimplificationRules.h`. -/
inductive PatternKind where
  | Operation
  | Constant
  | Any
deriving DecidableEq, Repr

/-- Faults raised via `assertThrow(..., OptimizerException, ...)`. -/
inductive Fault where
  /-- Message "Rule list not properly initialized". -/
  | ruleListNotInitialized
  /-- Constant pattern with non-empty argument list. -/
  | constantWithArguments
  /-- Pattern/argument arity mismatch for a matched operation. -/
  | arityMismatch
  /-- Message that Any patterns should not have arguments. -/
  | anyWithArguments
  /-- Message "Match group repetition for non-any". -/
  | groupRepetitionNonAny
  /-- Message "Match group set for operation". -/
  | groupSetForOperation
  /-- `instruction()` / `builtin()` called on a non-Operation pattern. -/
  | notOperation
  /-- Message "No match group and no constant value given". -/
  | noConstantValue
  /-- Message that an Any pattern used as output needs a match group. -/
  | ungroundedAny
  /-- `matchGroupValue()` preconditions violated. -/
  | matchGroupValueFault
deriving DecidableEq, Repr

/-- The match-group table `std::map<unsigned, Expression const*>`:
an association list from group id to the bound expression.  The C++ code
only inserts a key after checking `count` is zero, so cons-insertion with
`List.lookup` is a faithful model of the map. -/
abbrev MatchGroups := List (Nat × Expression)

/-- The SSA value map `std::map<YulString, Expression const*>`.  A key
mapped to a null pointer behaves exactly like an absent key (both skip the
substitution), so the model stores only non-null entries. -/
abbrev SSAMap := List (String × Expression)

/-- `yul::Pattern` (wide, 256-bit domain): kind, instruction (valid for
`Operation`), optional fixed constant value (valid for `Constant`),
argument patterns, and match-group id (0 = unassigned).  The back-pointer
to the shared match-group table is not stored; the table is passed to
`matches`/`toExpression` explicitly. -/
inductive Pattern where
  | mk (kind : PatternKind) (instruction : Instruction) (data : Option Nat)
       (arguments : List Pattern) (matchGroup : Nat)

/-- Kind field of a `Pattern`. -/
def Pattern.kind : Pattern → PatternKind
  | .mk k _ _ _ _ => k

/-- Instruction field of a `Pattern` (raw field access, no assertion). -/
def Pattern.instr : Pattern → Instruction
  | .mk _ i _ _ _ => i

/-- Fixed constant value of a `Pattern`. -/
def Pattern.data : Pattern → Option Nat
  | .mk _ _ d _ _ => d

/-- Argument patterns of a `Pattern`. -/
def Pattern.arguments : Pattern → List Pattern
  | .mk _ _ _ args _ => args

/-- Match-group id of a `Pattern` (0 = unassigned). -/
def Pattern.matchGroup : Pattern → Nat
  | .mk _ _ _ _ g => g

/-- `Pattern::instruction()`: asserts the pattern kind is `Operation`. -/
def Pattern.instruction (p : Pattern) : Except Fault Instruction :=
  if p.kind = PatternKind.Operation then .ok p.instr else .error .notOperation

/-- `SimplificationRules::instructionAndArguments`: resolves the leading
operator of an expression — directly for a `FunctionalInstruction`, or
through the EVM dialect for a `FunctionCall` whose name resolves to a
builtin backed by an instruction. -/
def instructionAndArguments (d : Dialect) (e : Expression) :
    Option (Instruction × List Expression) :=
  match e with
  | .FunctionalInstruction i args => some (i, args)
  | .FunctionCall name args =>
    match d.evmBuiltin with
    | some f =>
      match f name with
      | some (some i) => some (i, args)
      | _ => none
    | none => none
  | _ => none

/-- The SSA substitution step at the head of `Pattern::matches` (and of
`PatternEWasm::matches`): a non-`Any` pattern sees through a variable
reference to its unique SSA value; `Any` patterns never substitute. -/
def substituted (k : PatternKind) (e : Expression) (ssa : SSAMap) : Expression :=
  match k, e with
  | PatternKind.Any, _ => e
  | _, .Identifier n =>
    match ssa.lookup n with
    | some v => v
    | none => e
  | _, _ => e

mutual

/-- The structural phase of `Pattern::matches` (wide domain), operating on
the kind/instruction/data/arguments fields of the pattern (the group id
plays no role here): dispatch on the pattern kind over the (possibly
SSA-substituted) expression.  Returns the structural verdict and the
match-group table extended with the bindings made by argument patterns (a
failed branch may leave partial bindings, as in the C++ shared table). -/
def Pattern.structuralMatches (k : PatternKind) (instr : Instruction)
    (data : Option Nat) (args : List Pattern) (expr : Expression)
    (d : Dialect) (ssa : SSAMap) (groups : MatchGroups) :
    Except Fault (Bool × MatchGroups) :=
  match k with
  | PatternKind.Constant =>
    match expr with
    | .Literal lk v =>
      if lk ≠ LiteralKind.Number then .ok (false, groups)
      else
        match data with
        | some c =>
          if c ≠ u256parse v then .ok (false, groups)
          else
            match args with
            | [] => .ok (true, groups)
            | _ :: _ => .error .constantWithArguments
        | none =>
          match args with
          | [] => .ok (true, groups)
          | _ :: _ => .error .constantWithArguments
    | _ => .ok (false, groups)
  | PatternKind.Operation =>
    match instructionAndArguments d expr with
    | none => .ok (false, groups)
    | some (i, eargs) =>
      if instr ≠ i then .ok (false, groups)
      else if args.length ≠ eargs.length then .error .arityMismatch
      else Pattern.matchesList args eargs d ssa groups
  | PatternKind.Any =>
    match args with
    | [] => .ok (true, groups)
    | _ :: _ => .error .anyWithArguments
termination_by (sizeOf args, 1)

/-- `Pattern::matches` (wide domain): SSA substitution, structural
dispatch on the pattern kind, then the match-group logic.  Returns the
boolean match result together with the updated match-group table;
`assertThrow` failures surface as `Except.error`. -/
def Pattern.matches (p : Pattern) (e : Expression) (d : Dialect)
    (ssa : SSAMap) (groups : MatchGroups) :
    Except Fault (Bool × MatchGroups) :=
  match p with
  | .mk k instr data args g =>
    match Pattern.structuralMatches k instr data args (substituted k e ssa) d ssa groups with
    | .error f => .error f
    | .ok (false, groups') => .ok (false, groups')
    | .ok (true, groups') =>
      if g = 0 then .ok (true, groups')
      else
        match groups'.lookup g with
        | some firstMatch =>
          if k ≠ PatternKind.Any then .error .groupRepetitionNonAny
          else .ok (syntacticallyEqual firstMatch e && d.movable e, groups')
        | none =>
          if k = PatternKind.Any then .ok (true, (g, e) :: groups')
          else if k = PatternKind.Constant then
            .ok (true, (g, substituted k e ssa) :: groups')
          else .error .groupSetForOperation
termination_by (sizeOf p, 2)

/-- The child loop of `Pattern::matches`: match pattern arguments against
expression arguments position by position, threading the match-group
table and short-circuiting on the first structural failure. -/
def Pattern.matchesList (ps : List Pattern) (es : List Expression)
    (d : Dialect) (ssa : SSAMap) (groups : MatchGroups) :
    Except Fault (Bool × MatchGroups) :=
  match ps, es with
  | [], _ => .ok (true, groups)
  | _ :: _, [] => .ok (true, groups)
  | p :: ps', e :: es' =>
    match p.matches e d ssa groups with
    | .error f => .error f
    | .ok (false, groups') => .ok (false, groups')
    | .ok (true, groups') => Pattern.matchesList ps' es' d ssa groups'
termination_by (sizeOf ps, 0)

end

/-- `Pattern::matchGroupValue`: asserts a positive group id and a bound,
non-null entry in the match-group table, and returns the bound
expression.  (The C++ `operator[]` inserts a null pointer when the key is
absent, which the following `assertThrow` then rejects; absence therefore
maps to a fault.) -/
def Pattern.matchGroupValue (p : Pattern) (groups : MatchGroups) :
    Except Fault Expression :=
  if p.matchGroup = 0 then .error .matchGroupValueFault
  else
    match groups.lookup p.matchGroup with
    | some e => .ok e
    | none => .error .matchGroupValueFault

/-- Modelled from the spec: `ASTCopier().translate` (external collaborator,
`libyul/optimiser/ASTCopier.h` is not part of the slice) produces an
independent deep copy of an expression subtree; since the embedding's
expressions are immutable values and source locations are not modelled,
the copy is the identity. -/
def ASTCopier.translate (e : Expression) : Expression := e

/-- `valueOfNumberLiteral` composed with `boost::get<Literal>` as used by
`Pattern::d()`: the 256-bit value of a bound number literal; a non-literal
binding throws (`boost::bad_get`, modelled as a fault). -/
def Pattern.d (p : Pattern) (groups : MatchGroups) : Except Fault Nat :=
  match p.matchGroupValue groups with
  | .error f => .error f
  | .ok (.Literal _ v) => .ok (u256parse v)
  | .ok _ => .error .matchGroupValueFault

mutual

/-- `Pattern::toExpression` (wide domain): a pattern with a live match
group reproduces a deep copy of the bound expression; a constant emits a
fresh literal from its fixed value; an operation rebuilds a function call
from its instruction's lower-cased name (`names` models the external
`instructionInfo(...).name` table) and recursively rebuilt children; an
ungrounded `Any` is a construction error. -/
def Pattern.toExpression (p : Pattern) (groups : MatchGroups)
    (names : Instruction → String) : Except Fault Expression :=
  match p with
  | .mk k instr data args g =>
    match g with
    | Nat.succ gp =>
      Except.map ASTCopier.translate
        (Pattern.matchGroupValue (.mk k instr data args (Nat.succ gp)) groups)
    | 0 =>
      match k with
      | PatternKind.Constant =>
        match data with
        | none => .error .noConstantValue
        | some v => .ok (.Literal .Number v)
      | PatternKind.Operation =>
        Except.map (fun built => .FunctionCall (names instr).toLower built)
          (Pattern.toExpressionList args groups names)
      | PatternKind.Any => .error .ungroundedAny

/-- The child-reconstruction loop of `Pattern::toExpression`. -/
def Pattern.toExpressionList (ps : List Pattern) (groups : MatchGroups)
    (names : Instruction → String) : Except Fault (List Expression) :=
  match ps with
  | [] => .ok []
  | p :: ps' =>
    Except.bind (p.toExpression groups names) (fun e =>
      Except.map (fun es => e :: es)
        (Pattern.toExpressionList ps' groups names))

end

/-- `yul::PatternEWasm` (narrow, 64-bit domain): as `Pattern`, but the
operator identifier is a builtin name (`YulString`) and the fixed constant
value is a `uint64_t`. -/
inductive PatternEWasm where
  | mk (kind : PatternKind) (builtinName : String) (data : Option Nat)
       (arguments : List PatternEWasm) (matchGroup : Nat)

/-- Kind field of a `PatternEWasm`. -/
def PatternEWasm.kind : PatternEWasm → PatternKind
  | .mk k _ _ _ _ => k

/-- Builtin-name field of a `PatternEWasm` (raw field access). -/
def PatternEWasm.instr : PatternEWasm → String
  | .mk _ n _ _ _ => n

/-- Fixed constant value of a `PatternEWasm`. -/
def PatternEWasm.data : PatternEWasm → Option Nat
  | .mk _ _ d _ _ => d

/-- Argument patterns of a `PatternEWasm`. -/
def PatternEWasm.arguments : PatternEWasm → List PatternEWasm
  | .mk _ _ _ args _ => args

/-- Match-group id of a `PatternEWasm` (0 = unassigned). -/
def PatternEWasm.matchGroup : PatternEWasm → Nat
  | .mk _ _ _ _ g => g

/-- `PatternEWasm::builtin()`: asserts the pattern kind is `Operation`. -/
def PatternEWasm.builtin (p : PatternEWasm) : Except Fault String :=
  if p.kind = PatternKind.Operation then .ok p.instr else .error .notOperation

mutual

/-- The structural phase of `PatternEWasm::matches` (narrow domain):
as the wide structural phase, except that constants compare after a
`uint64_t` width reduction and operations are function calls whose name
the dialect confirms as a builtin and whose name equals the pattern's
builtin name. -/
def PatternEWasm.structuralMatches (k : PatternKind) (instr : String)
    (data : Option Nat) (args : List PatternEWasm) (expr : Expression)
    (d : Dialect) (ssa : SSAMap) (groups : MatchGroups) :
    Except Fault (Bool × MatchGroups) :=
  match k with
  | PatternKind.Constant =>
    match expr with
    | .Literal lk v =>
      if lk ≠ LiteralKind.Number then .ok (false, groups)
      else
        match data with
        | some c =>
          if c ≠ toUInt64 (u256parse v) then .ok (false, groups)
          else
            match args with
            | [] => .ok (true, groups)
            | _ :: _ => .error .constantWithArguments
        | none =>
          match args with
          | [] => .ok (true, groups)
          | _ :: _ => .error .constantWithArguments
    | _ => .ok (false, groups)
  | PatternKind.Operation =>
    match expr with
    | .FunctionCall name eargs =>
      if !d.builtin name then .ok (false, groups)
      else if instr ≠ name then .ok (false, groups)
      else if args.length ≠ eargs.length then .error .arityMismatch
      else PatternEWasm.matchesList args eargs d ssa groups
    | _ => .ok (false, groups)
  | PatternKind.Any =>
    match args with
    | [] => .ok (true, groups)
    | _ :: _ => .error .anyWithArguments
termination_by (sizeOf args, 1)

/-- `PatternEWasm::matches` (narrow domain): identical control flow to
the wide matcher around the narrow structural phase. -/
def PatternEWasm.matches (p : PatternEWasm) (e : Expression) (d : Dialect)
    (ssa : SSAMap) (groups : MatchGroups) :
    Except Fault (Bool × MatchGroups) :=
  match p with
  | .mk k instr data args g =>
    match PatternEWasm.structuralMatches k instr data args (substituted k e ssa) d ssa groups with
    | .error f => .error f
    | .ok (false, groups') => .ok (false, groups')
    | .ok (true, groups') =>
      if g = 0 then .ok (true, groups')
      else
        match groups'.lookup g with
        | some firstMatch =>
          if k ≠ PatternKind.Any then .error .groupRepetitionNonAny
          else .ok (syntacticallyEqual firstMatch e && d.movable e, groups')
        | none =>
          if k = PatternKind.Any then .ok (true, (g, e) :: groups')
          else if k = PatternKind.Constant then
            .ok (true, (g, substituted k e ssa) :: groups')
          else .error .groupSetForOperation
termination_by (sizeOf p, 2)

/-- The child loop of `PatternEWasm::matches`. -/
def PatternEWasm.matchesList (ps : List PatternEWasm) (es : List Expression)
    (d : Dialect) (ssa : SSAMap) (groups : MatchGroups) :
    Except Fault (Bool × MatchGroups) :=
  match ps, es with
  | [], _ => .ok (true, groups)
  | _ :: _, [] => .ok (true, groups)
  | p :: ps', e :: es' =>
    match p.matches e d ssa groups with
    | .error f => .error f
    | .ok (false, groups') => .ok (false, groups')
    | .ok (true, groups') => PatternEWasm.matchesList ps' es' d ssa groups'
termination_by (sizeOf ps, 0)

end

/-- `PatternEWasm::matchGroupValue`, as in the wide domain. -/
def PatternEWasm.matchGroupValue (p : PatternEWasm) (groups : MatchGroups) :
    Except Fault Expression :=
  if p.matchGroup = 0 then .error .matchGroupValueFault
  else
    match groups.lookup p.matchGroup with
    | some e => .ok e
    | none => .error .matchGroupValueFault

/-- `PatternEWasm::d()`: the bound literal's value cast to `uint64_t`. -/
def PatternEWasm.d (p : PatternEWasm) (groups : MatchGroups) :
    Except Fault Nat :=
  match p.matchGroupValue groups with
  | .error f => .error f
  | .ok (.Literal _ v) => .ok (toUInt64 (u256parse v))
  | .ok _ => .error .matchGroupValueFault

mutual

/-- `PatternEWasm::toExpression`: as in the wide domain, but the rebuilt
call uses the pattern's builtin name directly (no case transformation). -/
def PatternEWasm.toExpression (p : PatternEWasm) (groups : MatchGroups) :
    Except Fault Expression :=
  match p with
  | .mk k instr data args g =>
    match g with
    | Nat.succ gp =>
      Except.map ASTCopier.translate
        (PatternEWasm.matchGroupValue (.mk k instr data args (Nat.succ gp)) groups)
    | 0 =>
      match k with
      | PatternKind.Constant =>
        match data with
        | none => .error .noConstantValue
        | some v => .ok (.Literal .Number v)
      | PatternKind.Operation =>
        Except.map (fun built => .FunctionCall instr built)
          (PatternEWasm.toExpressionList args groups)
      | PatternKind.Any => .error .ungroundedAny

/-- The child-reconstruction loop of `PatternEWasm::toExpression`. -/
def PatternEWasm.toExpressionList (ps : List PatternEWasm)
    (groups : MatchGroups) : Except Fault (List Expression) :=
  match ps with
  | [] => .ok []
  | p :: ps' =>
    Except.bind (p.toExpression groups) (fun e =>
      Except.map (fun es => e :: es)
        (PatternEWasm.toExpressionList ps' groups))

end

/-- Modelled from the spec: `dev::eth::SimplificationRule`
(`libevmasm/SimplificationRule.h`, outside the slice) is the boundary
triple {pattern, feasibility predicate, action}.  The matching engine
reads only the pattern and the optional feasibility predicate (a
side-effect-free closure over the bound groups, modelled as a function of
the match-group table); the replacement-producing action is never
consulted during matching and is represented by the reconstruction
pattern of the rule where needed. -/
structure SimplificationRule (P : Type) where
  pattern : P
  feasible : Option (MatchGroups → Bool)

/-- Absent feasibility predicates always pass:
`if (!rule.feasible || rule.feasible())`. -/
def feasibleHolds {P : Type} (r : SimplificationRule P)
    (groups : MatchGroups) : Bool :=
  match r.feasible with
  | none => true
  | some f => f groups

/-- `yul::SimplificationRules` engine state: 256 wide-rule buckets indexed
by `uint8_t(instruction)` and a map from builtin name to the narrow-rule
bucket.  The shared match-group table is threaded explicitly through the
matching functions instead of being stored. -/
structure SimplificationRules where
  m_rules : Nat → List (SimplificationRule Pattern)
  m_rulesEWasm : String → List (SimplificationRule PatternEWasm)

/-- `SimplificationRules::isInitialized`: the `ADD` bucket of the wide
table is non-empty. -/
def SimplificationRules.isInitialized (s : SimplificationRules) : Bool :=
  !(s.m_rules (ADDopcode % 256)).isEmpty

/-- `SimplificationRules::addRule` (wide overload): append the rule to the
bucket of its pattern's instruction (`instruction()` asserts the pattern
kind is `Operation`). -/
def SimplificationRules.addRule (s : SimplificationRules)
    (r : SimplificationRule Pattern) : Except Fault SimplificationRules :=
  match r.pattern.instruction with
  | .error f => .error f
  | .ok i =>
    .ok { s with
          m_rules := fun j =>
            if j = i % 256 then s.m_rules j ++ [r] else s.m_rules j }

/-- `SimplificationRules::addRule` (eWasm overload): a rule whose
pattern's builtin name is empty is silently dropped; otherwise it is
appended to the bucket keyed by that name. -/
def SimplificationRules.addRuleEWasm (s : SimplificationRules)
    (r : SimplificationRule PatternEWasm) :
    Except Fault SimplificationRules :=
  match r.pattern.builtin with
  | .error f => .error f
  | .ok b =>
    if b.isEmpty then .ok s
    else
      .ok { s with
            m_rulesEWasm := fun n =>
              if n = b then s.m_rulesEWasm n ++ [r] else s.m_rulesEWasm n }

/-- The rule loop of `SimplificationRules::findFirstMatch`: for each rule
in bucket order, reset the shared match-group table (the matcher starts
from the empty table), run the matcher, and on structural success accept
the rule iff its feasibility predicate is absent or returns true. -/
def findFirstMatchList (rs : List (SimplificationRule Pattern))
    (e : Expression) (d : Dialect) (ssa : SSAMap) :
    Except Fault (Option (SimplificationRule Pattern)) :=
  match rs with
  | [] => .ok none
  | r :: rest =>
    match r.pattern.matches e d ssa [] with
    | .error f => .error f
    | .ok (b, g) =>
      if b then
        if feasibleHolds r g then .ok (some r)
        else findFirstMatchList rest e d ssa
      else findFirstMatchList rest e d ssa

/-- `SimplificationRules::findFirstMatch`: assert the rule list is
initialized, resolve the expression's leading operator, and scan that
operator's bucket; an unresolvable operator yields no match. -/
def SimplificationRules.findFirstMatch (s : SimplificationRules)
    (e : Expression) (d : Dialect) (ssa : SSAMap) :
    Except Fault (Option (SimplificationRule Pattern)) :=
  if !s.isInitialized then .error .ruleListNotInitialized
  else
    match instructionAndArguments d e with
    | none => .ok none
    | some (i, _) => findFirstMatchList (s.m_rules (i % 256)) e d ssa

/-- The rule loop of `SimplificationRules::findFirstMatchEWasm`. -/
def findFirstMatchListEWasm (rs : List (SimplificationRule PatternEWasm))
    (e : Expression) (d : Dialect) (ssa : SSAMap) :
    Except Fault (Option (SimplificationRule PatternEWasm)) :=
  match rs with
  | [] => .ok none
  | r :: rest =>
    match r.pattern.matches e d ssa [] with
    | .error f => .error f
    | .ok (b, g) =>
      if b then
        if feasibleHolds r g then .ok (some r)
        else findFirstMatchListEWasm rest e d ssa
      else findFirstMatchListEWasm rest e d ssa

/-- `SimplificationRules::findFirstMatchEWasm`: assert initialization;
only a function call whose name the dialect confirms as a builtin has its
bucket scanned, every other expression yields no match. -/
def SimplificationRules.findFirstMatchEWasm (s : SimplificationRules)
    (e : Expression) (d : Dialect) (ssa : SSAMap) :
    Except Fault (Option (SimplificationRule PatternEWasm)) :=
  if !s.isInitialized then .error .ruleListNotInitialized
  else
    match e with
    | .FunctionCall name _ =>
      if d.builtin name then
        findFirstMatchListEWasm (s.m_rulesEWasm name) e d ssa
      else .ok none
    | _ => .ok none

/- The narrow builtin-name table `EWasmBuiltins` (`SimplificationRules.h`):
operators the eWasm domain supports map to `i64.*` builtin names;
unsupported operators and no-result builtins map to the empty string. -/
namespace EWasmBuiltins

/-- `EWasmBuiltins::ADD`. -/
def ADD : String := "i64.add"

/-- `EWasmBuiltins::SUB`. -/
def SUB : String := "i64.sub"

/-- `EWasmBuiltins::MUL`. -/
def MUL : String := "i64.mul"

/-- `EWasmBuiltins::DIV`. -/
def DIV : String := "i64.div_u"

/-- `EWasmBuiltins::MOD`. -/
def MOD : String := "i64.rem_u"

/-- `EWasmBuiltins::AND`. -/
def AND : String := "i64.and"

/-- `EWasmBuiltins::OR`. -/
def OR : String := "i64.or"

/-- `EWasmBuiltins::XOR`. -/
def XOR : String := "i64.xor"

/-- `EWasmBuiltins::SHL`. -/
def SHL : String := "i64.shl"

/-- `EWasmBuiltins::SHR`. -/
def SHR : String := "i64.shr_u"

/-- `EWasmBuiltins::ISZERO`. -/
def ISZERO : String := "i64.eqz"

/-- `EWasmBuiltins::EQ`. -/
def EQ : String := "i64.eq"

/-- `EWasmBuiltins::LT`. -/
def LT : String := "i64.lt_u"

/-- `EWasmBuiltins::GT`. -/
def GT : String := "i64.gt_u"

/-- `EWasmBuiltins::SDIV` (unsupported, empty name). -/
def SDIV : String := ""

/-- `EWasmBuiltins::SMOD` (unsupported, empty name). -/
def SMOD : String := ""

/-- `EWasmBuiltins::EXP` (unsupported, empty name). -/
def EXP : String := ""

/-- `EWasmBuiltins::NOT` (unsupported, empty name). -/
def NOT : String := ""

/-- `EWasmBuiltins::SLT` (unsupported, empty name). -/
def SLT : String := ""

/-- `EWasmBuiltins::SGT` (unsupported, empty name). -/
def SGT : String := ""

/-- `EWasmBuiltins::BYTE` (unsupported, empty name). -/
def BYTE : String := ""

/-- `EWasmBuiltins::ADDMOD` (unsupported, empty name). -/
def ADDMOD : String := ""

/-- `EWasmBuiltins::MULMOD` (unsupported, empty name). -/
def MULMOD : String := ""

/-- `EWasmBuiltins::SIGNEXTEND` (unsupported, empty name). -/
def SIGNEXTEND : String := ""

/-- `EWasmBuiltins::ADDRESS` (no result for eWasm, empty name). -/
def ADDRESS : String := ""

/-- `EWasmBuiltins::CALLER` (no result for eWasm, empty name). -/
def CALLER : String := ""

/-- `EWasmBuiltins::ORIGIN` (no result for eWasm, empty name). -/
def ORIGIN : String := ""

/-- `EWasmBuiltins::COINBASE` (no result for eWasm, empty name). -/
def COINBASE : String := ""

end EWasmBuiltins

/-- Acceptance predicate of the `findFirstMatch` loop for one rule: the
pattern structurally matches the expression starting from a freshly reset
match-group table, and the feasibility predicate (if present) passes on
the resulting bindings. -/
def ruleAccepts (r : SimplificationRule Pattern) (e : Expression)
    (d : Dialect) (ssa : SSAMap) : Bool :=
  match r.pattern.matches e d ssa [] with
  | .ok (true, g) => feasibleHolds r g
  | _ => false

/-- Acceptance predicate of the `findFirstMatchEWasm` loop for one rule,
as `ruleAccepts` in the narrow domain. -/
def ruleAcceptsEWasm (r : SimplificationRule PatternEWasm) (e : Expression)
    (d : Dialect) (ssa : SSAMap) : Bool :=
  match r.pattern.matches e d ssa [] with
  | .ok (true, g) => feasibleHolds r g
  | _ => false

/-- A dialect with no EVM builtin resolution, no eWasm builtins, and every
expression movable; used to instantiate theorems at concrete inputs. -/
def plainDialect : Dialect :=
  { evmBuiltin := none, builtin := fun _ => false, movable := fun _ => true }

/-- A dialect that recognizes every call name as an eWasm builtin;
used to instantiate theorems at concrete inputs. -/
def allBuiltinDialect : Dialect :=
  { evmBuiltin := none, builtin := fun _ => true, movable := fun _ => true }

/-- A wildcard pattern with no match group (wide domain). -/
def anyPat : Pattern := .mk PatternKind.Any 0 none [] 0

/-- The rule pattern `add(X, Y)` sketched with wildcards carrying no
groups, rooted at the `ADD` opcode; used for concrete instantiations. -/
def addAnyAnyPat : Pattern := .mk PatternKind.Operation ADDopcode none [anyPat, anyPat] 0

/-- A rule with no feasibility predicate over `addAnyAnyPat`. -/
def ruleNoFeasible : SimplificationRule Pattern :=
  { pattern := addAnyAnyPat, feasible := none }

/-- A rule with an always-true feasibility predicate over `addAnyAnyPat`. -/
def ruleAlwaysFeasible : SimplificationRule Pattern :=
  { pattern := addAnyAnyPat, feasible := some (fun _ => true) }

/-- An engine state whose `ADD` bucket holds `ruleNoFeasible` then
`ruleAlwaysFeasible` (registered in that order), and nothing else. -/
def twoRuleState : SimplificationRules :=
  { m_rules := fun j =>
      if j = ADDopcode % 256 then [ruleNoFeasible, ruleAlwaysFeasible] else []
    m_rulesEWasm := fun _ => [] }

/-- The rule pattern shape "X op X" (wide domain): an operation whose two
children are wildcards sharing one match group `g`. -/
def xopx (op : Instruction) (g : Nat) : Pattern :=
  .mk PatternKind.Operation op none
    [.mk PatternKind.Any 0 none [] g, .mk PatternKind.Any 0 none [] g] 0

/-- A nullary eWasm rule over the builtin `i64.add`, with no feasibility
predicate; used to instantiate theorems at concrete inputs. -/
def eWasmAddRule : SimplificationRule PatternEWasm :=
  { pattern := .mk PatternKind.Operation "i64.add" none [] 0, feasible := none }

/-- An eWasm rule whose pattern's builtin name is empty (as produced for
the unsupported operators of `EWasmBuiltins`). -/
def emptyNameEWasmRule : SimplificationRule PatternEWasm :=
  { pattern := .mk PatternKind.Operation EWasmBuiltins.SDIV none [] 0
    feasible := none }

/-- An engine state whose eWasm bucket for `i64.add` holds `eWasmAddRule`. -/
def eWasmState : SimplificationRules :=
  { m_rules := twoRuleState.m_rules
    m_rulesEWasm := fun n => if n = "i64.add" then [eWasmAddRule] else [] }

/-- C8: a pattern of kind `Any` with no match-group id matches every
expression in both word domains and leaves the match-group table
unchanged. -/
theorem C8_any_without_group_matches_everything (i : Instruction)
    (nm : String) (dta dta2 : Option Nat) (e : Expression) (d : Dialect)
    (ssa : SSAMap) (groups : MatchGroups) :
    (Pattern.mk PatternKind.Any i dta [] 0).matches e d ssa groups
      = .ok (true, groups) ∧
    (PatternEWasm.mk PatternKind.Any nm dta2 [] 0).matches e d ssa groups
      = .ok (true, groups) := by
  constructor
  · simp [Pattern.matches, Pattern.structuralMatches]
  · simp [PatternEWasm.matches, PatternEWasm.structuralMatches]

/-- C5: when an Operation pattern's operator equals the expression's
resolved operator, an arity mismatch between the pattern's children and
the resolved argument list is a fatal internal-consistency fault
(`assertThrow`), never an ordinary `false`, in both word domains. -/
theorem C5_arity_mismatch_is_fault (e : Expression) (d : Dialect)
    (ssa : SSAMap) (groups : MatchGroups) (i : Instruction)
    (dta dta2 : Option Nat) (args : List Pattern) (args2 : List PatternEWasm)
    (g g2 : Nat) (nm : String) (eargs : List Expression) :
    (instructionAndArguments d (substituted PatternKind.Operation e ssa)
        = some (i, eargs) →
     args.length ≠ eargs.length →
     (Pattern.mk PatternKind.Operation i dta args g).matches e d ssa groups
       = .error .arityMismatch) ∧
    (substituted PatternKind.Operation e ssa = .FunctionCall nm eargs →
     d.builtin nm = true →
     args2.length ≠ eargs.length →
     (PatternEWasm.mk PatternKind.Operation nm dta2 args2 g2).matches e d ssa groups
       = .error .arityMismatch) := by
  constructor
  · intro hres hlen
    simp [Pattern.matches, Pattern.structuralMatches, hres, hlen]
  · intro hsub hb hlen
    simp [PatternEWasm.matches, PatternEWasm.structuralMatches, hsub, hb, hlen]

/-- Witness for C5 at concrete inputs: a unary pattern for a nullary
operator expression faults in both domains. -/
theorem C5_arity_mismatch_is_fault_witness :
    (Pattern.mk PatternKind.Operation 7 none [anyPat] 0).matches
        (.FunctionalInstruction 7 []) plainDialect [] []
      = .error .arityMismatch ∧
    (PatternEWasm.mk PatternKind.Operation "i64.add" none
        [PatternEWasm.mk PatternKind.Any "" none [] 0] 0).matches
        (.FunctionCall "i64.add" []) allBuiltinDialect [] []
      = .error .arityMismatch := by
  have h := C5_arity_mismatch_is_fault (.FunctionalInstruction 7 [])
    plainDialect [] [] 7 none none [anyPat]
    [PatternEWasm.mk PatternKind.Any "" none [] 0] 0 0 "i64.add" []
  have h2 := C5_arity_mismatch_is_fault (.FunctionCall "i64.add" [])
    allBuiltinDialect [] [] 7 none none [anyPat]
    [PatternEWasm.mk PatternKind.Any "" none [] 0] 0 0 "i64.add" []
  exact ⟨h.1 rfl (by simp [anyPat]), h2.2 rfl rfl (by simp)⟩

/-- C7: when the leading operator of the expression does not resolve, both
lookup entry points return "no match" (`none`) without fault: the wide
engine when `instructionAndArguments` fails, the eWasm engine when the
expression is not a function call or its name is not a dialect builtin. -/
theorem C7_unresolved_operator_yields_no_match (s : SimplificationRules)
    (e : Expression) (d : Dialect) (ssa : SSAMap) (nm : String)
    (eargs : List Expression) (hinit : s.isInitialized = true) :
    (instructionAndArguments d e = none →
      s.findFirstMatch e d ssa = .ok none) ∧
    ((∀ n as, e ≠ .FunctionCall n as) →
      s.findFirstMatchEWasm e d ssa = .ok none) ∧
    (d.builtin nm = false →
      s.findFirstMatchEWasm (.FunctionCall nm eargs) d ssa = .ok none) := by
  refine ⟨?_, ?_, ?_⟩
  · intro hres
    simp [SimplificationRules.findFirstMatch, hinit, hres]
  · intro hne
    cases e with
    | FunctionCall n as => exact absurd rfl (hne n as)
    | FunctionalInstruction i as =>
      simp [SimplificationRules.findFirstMatchEWasm, hinit]
    | Identifier n =>
      simp [SimplificationRules.findFirstMatchEWasm, hinit]
    | Literal k v =>
      simp [SimplificationRules.findFirstMatchEWasm, hinit]
  · intro hnb
    simp [SimplificationRules.findFirstMatchEWasm, hinit, hnb]

/-- Witness for C7 at concrete inputs: a bare literal resolves in neither
engine, and a call the dialect does not recognize resolves in the eWasm
engine to no match. -/
theorem C7_unresolved_operator_yields_no_match_witness :
    twoRuleState.findFirstMatch (.Literal .Number 0) plainDialect []
      = .ok none ∧
    twoRuleState.findFirstMatchEWasm (.Literal .Number 0) plainDialect []
      = .ok none ∧
    twoRuleState.findFirstMatchEWasm (.FunctionCall "f" []) plainDialect []
      = .ok none := by
  have h := C7_unresolved_operator_yields_no_match twoRuleState
    (.Literal .Number 0) plainDialect [] "f" []
    (by simp [twoRuleState, SimplificationRules.isInitialized])
  exact ⟨h.1 rfl, h.2.1 (by intro n as hne; exact Expression.noConfusion hne),
    h.2.2 rfl⟩

/-- C3: a Constant pattern fails unless the (possibly SSA-substituted)
expression is a numeric literal; with a fixed value it fails unless the
literal's decoded value equals it in the pattern's word domain — the wide
domain compares the full 256-bit value, the narrow domain compares after
reducing the literal to 64 bits. -/
theorem C3_constant_pattern_value_comparison (e : Expression) (d : Dialect)
    (ssa : SSAMap) (groups : MatchGroups) (i : Instruction) (nm : String)
    (dta : Option Nat) (args : List Pattern) (args2 : List PatternEWasm)
    (g c v : Nat) :
    ((∀ w, substituted PatternKind.Constant e ssa ≠ .Literal .Number w) →
      (Pattern.mk PatternKind.Constant i dta args g).matches e d ssa groups
        = .ok (false, groups) ∧
      (PatternEWasm.mk PatternKind.Constant nm dta args2 g).matches e d ssa groups
        = .ok (false, groups)) ∧
    (substituted PatternKind.Constant e ssa = .Literal .Number v →
      (c ≠ u256parse v →
        (Pattern.mk PatternKind.Constant i (some c) args g).matches e d ssa groups
          = .ok (false, groups)) ∧
      (c = u256parse v →
        (Pattern.mk PatternKind.Constant i (some c) [] 0).matches e d ssa groups
          = .ok (true, groups)) ∧
      (c ≠ toUInt64 (u256parse v) →
        (PatternEWasm.mk PatternKind.Constant nm (some c) args2 g).matches e d ssa groups
          = .ok (false, groups)) ∧
      (c = toUInt64 (u256parse v) →
        (PatternEWasm.mk PatternKind.Constant nm (some c) [] 0).matches e d ssa groups
          = .ok (true, groups))) := by
  constructor
  · intro hnl
    constructor
    · cases hse : substituted PatternKind.Constant e ssa with
      | Literal lk w =>
        cases lk with
        | Number => exact absurd hse (hnl w)
        | Boolean => simp [Pattern.matches, Pattern.structuralMatches.eq_def, hse]
        | String => simp [Pattern.matches, Pattern.structuralMatches.eq_def, hse]
      | FunctionalInstruction a b =>
        simp [Pattern.matches, Pattern.structuralMatches.eq_def, hse]
      | FunctionCall n as =>
        simp [Pattern.matches, Pattern.structuralMatches.eq_def, hse]
      | Identifier n =>
        simp [Pattern.matches, Pattern.structuralMatches.eq_def, hse]
    · cases hse : substituted PatternKind.Constant e ssa with
      | Literal lk w =>
        cases lk with
        | Number => exact absurd hse (hnl w)
        | Boolean => simp [PatternEWasm.matches, PatternEWasm.structuralMatches.eq_def, hse]
        | String => simp [PatternEWasm.matches, PatternEWasm.structuralMatches.eq_def, hse]
      | FunctionalInstruction a b =>
        simp [PatternEWasm.matches, PatternEWasm.structuralMatches.eq_def, hse]
      | FunctionCall n as =>
        simp [PatternEWasm.matches, PatternEWasm.structuralMatches.eq_def, hse]
      | Identifier n =>
        simp [PatternEWasm.matches, PatternEWasm.structuralMatches.eq_def, hse]
  · intro hl
    refine ⟨?_, ?_, ?_, ?_⟩
    · intro hc
      simp [Pattern.matches, Pattern.structuralMatches.eq_def, hl, hc]
    · intro hc
      simp [Pattern.matches, Pattern.structuralMatches.eq_def, hl, hc]
    · intro hc
      simp [PatternEWasm.matches, PatternEWasm.structuralMatches.eq_def, hl, hc]
    · intro hc
      simp [PatternEWasm.matches, PatternEWasm.structuralMatches.eq_def, hl, hc]

/-- Witness for C3 at concrete inputs: a variable fails a Constant
pattern, the 256-bit literal 2^64 + 5 fails the wide fixed constant 5
(full-width comparison) but matches the narrow fixed constant 5 (64-bit
width reduction). -/
theorem C3_constant_pattern_value_comparison_witness :
    (Pattern.mk PatternKind.Constant 0 (some 5) [] 1).matches
        (.Identifier "x") plainDialect [] [] = .ok (false, []) ∧
    (Pattern.mk PatternKind.Constant 0 (some 5) [] 0).matches
        (.Literal .Number (2 ^ 64 + 5)) plainDialect [] [] = .ok (false, []) ∧
    (PatternEWasm.mk PatternKind.Constant "" (some 5) [] 0).matches
        (.Literal .Number (2 ^ 64 + 5)) plainDialect [] [] = .ok (true, []) := by
  have h1 := C3_constant_pattern_value_comparison (.Identifier "x")
    plainDialect [] [] 0 "" (some 5) [] [] 1 5 0
  have h2 := C3_constant_pattern_value_comparison
    (.Literal .Number (2 ^ 64 + 5)) plainDialect [] [] 0 "" (some 5) [] [] 0
    5 (2 ^ 64 + 5)
  refine ⟨(h1.1 ?_).1, (h2.2 rfl).1 ?_, (h2.2 rfl).2.2.2 ?_⟩
  · intro w hcontra
    simp [substituted] at hcontra
  · intro hcontra
    have : (5 : Nat) = (2 ^ 64 + 5) % 2 ^ 256 := hcontra
    norm_num at this
  · show (5 : Nat) = (2 ^ 64 + 5) % 2 ^ 256 % 2 ^ 64
    norm_num

/-- C4: a non-`Any` pattern sees through a variable reference with a known
SSA value and matches against the substituted value; `Any` patterns never
substitute; an unbound `Any` group binds the original expression while an
unbound `Constant` group binds the substituted literal. -/
theorem C4_ssa_substitution_and_binding (k : PatternKind) (n : String)
    (v : Nat) (ve e : Expression) (d : Dialect) (ssa : SSAMap)
    (groups : MatchGroups) (i : Instruction) (dta : Option Nat) (g c : Nat) :
    (k ≠ PatternKind.Any → ssa.lookup n = some ve →
      substituted k (.Identifier n) ssa = ve) ∧
    (substituted PatternKind.Any e ssa = e) ∧
    (g ≠ 0 → groups.lookup g = none →
      (Pattern.mk PatternKind.Any i dta [] g).matches e d ssa groups
        = .ok (true, (g, e) :: groups)) ∧
    (g ≠ 0 → groups.lookup g = none →
      ssa.lookup n = some (.Literal .Number v) → c = u256parse v →
      (Pattern.mk PatternKind.Constant i (some c) [] g).matches
          (.Identifier n) d ssa groups
        = .ok (true, (g, Expression.Literal .Number v) :: groups)) := by
  refine ⟨?_, ?_, ?_, ?_⟩
  · intro hk hs
    cases k with
    | Any => exact absurd rfl hk
    | Operation => simp [substituted, hs]
    | Constant => simp [substituted, hs]
  · cases e <;> simp [substituted]
  · intro hg hub
    simp [Pattern.matches, Pattern.structuralMatches.eq_def, hg, hub]
  · intro hg hub hs hc
    simp [Pattern.matches, Pattern.structuralMatches.eq_def, substituted,
      hs, hg, hub, hc]

/-- Witness for C4 at concrete inputs: with `ssa = [x ↦ 7]`, an `Any`
group binds the variable reference `x` itself while a `Constant` group
binds the literal `7`. -/
theorem C4_ssa_substitution_and_binding_witness :
    substituted PatternKind.Constant (.Identifier "x")
        [("x", Expression.Literal .Number 7)] = .Literal .Number 7 ∧
    substituted PatternKind.Any (.Identifier "x")
        [("x", Expression.Literal .Number 7)] = .Identifier "x" ∧
    (Pattern.mk PatternKind.Any 0 none [] 3).matches (.Identifier "x")
        plainDialect [("x", Expression.Literal .Number 7)] []
      = .ok (true, [(3, Expression.Identifier "x")]) ∧
    (Pattern.mk PatternKind.Constant 0 (some 7) [] 3).matches
        (.Identifier "x") plainDialect [("x", Expression.Literal .Number 7)] []
      = .ok (true, [(3, Expression.Literal .Number 7)]) := by
  have h := C4_ssa_substitution_and_binding PatternKind.Constant "x" 7
    (Expression.Literal .Number 7) (.Identifier "x") plainDialect
    [("x", Expression.Literal .Number 7)] [] 0 none 3 7
  refine ⟨h.1 (by simp) (by simp), h.2.1, h.2.2.1 (by simp) rfl, ?_⟩
  exact h.2.2.2 (by simp) rfl (by simp) (by norm_num [u256parse])

/-- Counterexample to C2 as stated: a `Constant` pattern carrying a bound
match-group id, applied to an expression that is syntactically equal to
the stored expression and movable, does not succeed — it raises the
"Match group repetition for non-any" fault, so "succeeds iff equal and
movable" fails for non-`Any` patterns. -/
theorem C2_counterexample_nonany_bound_group :
    syntacticallyEqual (Expression.Literal .Number 5)
        (Expression.Literal .Number 5) = true ∧
    plainDialect.movable (.Literal .Number 5) = true ∧
    (Pattern.mk PatternKind.Constant 0 (some 5) [] 1).matches
        (.Literal .Number 5) plainDialect []
        [(1, Expression.Literal .Number 5)]
      = .error .groupRepetitionNonAny := by
  have h5 : u256parse 5 = 5 := by norm_num [u256parse]
  refine ⟨rfl, rfl, ?_⟩
  simp [Pattern.matches, Pattern.structuralMatches.eq_def, substituted, h5]

/-- C2 (amended to patterns of kind `Any`, the only kind for which a bound
group re-check is legal): an `Any` pattern whose group is already bound
matches exactly when the newly-seen expression is syntactically equal to
the stored one and movable, in both domains; hence "X op X" with wildcard
groups matches two structurally identical movable children and fails when
they differ or are not movable. -/
theorem C2_bound_group_requires_equal_movable (i op : Instruction)
    (nm : String) (dta dta2 : Option Nat) (g : Nat) (e fm a b : Expression)
    (d : Dialect) (ssa : SSAMap) (groups : MatchGroups) :
    (g ≠ 0 → groups.lookup g = some fm →
      (Pattern.mk PatternKind.Any i dta [] g).matches e d ssa groups
        = .ok (syntacticallyEqual fm e && d.movable e, groups) ∧
      (PatternEWasm.mk PatternKind.Any nm dta2 [] g).matches e d ssa groups
        = .ok (syntacticallyEqual fm e && d.movable e, groups)) ∧
    (g ≠ 0 →
      (xopx op g).matches (.FunctionalInstruction op [a, b]) d ssa []
        = .ok (syntacticallyEqual a b && d.movable b, [(g, a)]) ∧
      (a ≠ b →
        (xopx op g).matches (.FunctionalInstruction op [a, b]) d ssa []
          = .ok (false, [(g, a)])) ∧
      (d.movable a = false →
        (xopx op g).matches (.FunctionalInstruction op [a, b]) d ssa []
          = .ok (false, [(g, a)]))) := by
  constructor
  · intro hg hb
    constructor
    · simp [Pattern.matches, Pattern.structuralMatches.eq_def, hg, hb]
    · simp [PatternEWasm.matches, PatternEWasm.structuralMatches.eq_def, hg, hb]
  · intro hg
    have hmain : (xopx op g).matches (.FunctionalInstruction op [a, b]) d ssa []
        = .ok (syntacticallyEqual a b && d.movable b, [(g, a)]) := by
      cases hx : syntacticallyEqual a b && d.movable b with
      | false =>
        simp [xopx, Pattern.matches, Pattern.structuralMatches.eq_def,
          Pattern.matchesList, substituted, instructionAndArguments, hg, hx]
      | true =>
        simp [xopx, Pattern.matches, Pattern.structuralMatches.eq_def,
          Pattern.matchesList, substituted, instructionAndArguments, hg, hx]
    refine ⟨hmain, ?_, ?_⟩
    · intro hne
      rw [hmain]
      simp [syntacticallyEqual, hne]
    · intro hmov
      rw [hmain]
      by_cases hab : a = b
      · subst hab
        simp [hmov]
      · simp [syntacticallyEqual, hab]

/-- Witness for the amended C2 at concrete inputs: a bound `Any` group
accepts the identical movable expression; "add(X, X)" matches `add(z, z)`
and rejects `add(u, w)`. -/
theorem C2_bound_group_requires_equal_movable_witness :
    (Pattern.mk PatternKind.Any 0 none [] 1).matches (.Identifier "y")
        plainDialect [] [(1, Expression.Identifier "y")]
      = .ok (true, [(1, Expression.Identifier "y")]) ∧
    (xopx ADDopcode 5).matches
        (.FunctionalInstruction ADDopcode [.Identifier "z", .Identifier "z"])
        plainDialect [] []
      = .ok (true, [(5, Expression.Identifier "z")]) ∧
    (xopx ADDopcode 5).matches
        (.FunctionalInstruction ADDopcode [.Identifier "u", .Identifier "w"])
        plainDialect [] []
      = .ok (false, [(5, Expression.Identifier "u")]) := by
  have h1 := C2_bound_group_requires_equal_movable 0 ADDopcode "" none none 1
    (.Identifier "y") (.Identifier "y") (.Identifier "y") (.Identifier "y")
    plainDialect [] [(1, Expression.Identifier "y")]
  have h2 := C2_bound_group_requires_equal_movable 0 ADDopcode "" none none 5
    (.Identifier "z") (.Identifier "z") (.Identifier "z") (.Identifier "z")
    plainDialect [] []
  have h3 := C2_bound_group_requires_equal_movable 0 ADDopcode "" none none 5
    (.Identifier "u") (.Identifier "u") (.Identifier "u") (.Identifier "w")
    plainDialect [] []
  refine ⟨?_, ?_, ?_⟩
  · have := (h1.1 (by simp) (by simp)).1
    simpa [syntacticallyEqual, plainDialect] using this
  · have := (h2.2 (by simp)).1
    simpa [syntacticallyEqual, plainDialect] using this
  · exact (h3.2 (by simp)).2.1 (by simp)

/-- Counterexample to C6 as stated: a bound group id recurring on a
`Constant` pattern does not always fault — when the structural phase
rejects the expression first (here a variable with no SSA value), matches
returns an ordinary non-match and the group logic is never reached. -/
theorem C6_counterexample_structural_failure_first :
    (Pattern.mk PatternKind.Constant 0 (some 5) [] 1).matches
        (.Identifier "x") plainDialect [] [(1, Expression.Literal .Number 5)]
      = .ok (false, [(1, Expression.Literal .Number 5)]) := by
  simp [Pattern.matches, Pattern.structuralMatches.eq_def, substituted]

/-- C6 (amended: the fault fires when the group logic is reached, i.e.
when the pattern's structural phase succeeds): if a pattern of kind
`Operation` or `Constant` structurally accepts the expression (witnessed
by the same pattern with group id 0 returning a true match) and its group
id is already bound in the resulting table, `matches` raises the fatal
"Match group repetition for non-any" fault instead of returning an
ordinary verdict, in both domains. -/
theorem C6_bound_group_nonany_is_fault (k : PatternKind) (i : Instruction)
    (nm : String) (dta dta2 : Option Nat) (args : List Pattern)
    (args2 : List PatternEWasm) (g : Nat) (e fm fm2 : Expression)
    (d : Dialect) (ssa : SSAMap) (groups groups' groups2 groups2' : MatchGroups)
    (hk : k ≠ PatternKind.Any) (hg : g ≠ 0) :
    ((Pattern.mk k i dta args 0).matches e d ssa groups = .ok (true, groups') →
     groups'.lookup g = some fm →
     (Pattern.mk k i dta args g).matches e d ssa groups
       = .error .groupRepetitionNonAny) ∧
    ((PatternEWasm.mk k nm dta2 args2 0).matches e d ssa groups2
        = .ok (true, groups2') →
     groups2'.lookup g = some fm2 →
     (PatternEWasm.mk k nm dta2 args2 g).matches e d ssa groups2
       = .error .groupRepetitionNonAny) := by
  constructor
  · intro hstruct hb
    simp only [Pattern.matches.eq_def] at hstruct ⊢
    cases hs : Pattern.structuralMatches k i dta args (substituted k e ssa)
        d ssa groups with
    | error f =>
      rw [hs] at hstruct
      exact absurd hstruct (by simp)
    | ok bg =>
      obtain ⟨b, gr⟩ := bg
      rw [hs] at hstruct
      cases b with
      | false => simp at hstruct
      | true =>
        simp at hstruct
        subst hstruct
        simp [hg, hb, hk]
  · intro hstruct hb
    simp only [PatternEWasm.matches.eq_def] at hstruct ⊢
    cases hs : PatternEWasm.structuralMatches k nm dta2 args2
        (substituted k e ssa) d ssa groups2 with
    | error f =>
      rw [hs] at hstruct
      exact absurd hstruct (by simp)
    | ok bg =>
      obtain ⟨b, gr⟩ := bg
      rw [hs] at hstruct
      cases b with
      | false => simp at hstruct
      | true =>
        simp at hstruct
        subst hstruct
        simp [hg, hb, hk]

/-- Witness for the amended C6 at concrete inputs: a `Constant` pattern
that structurally accepts the literal `5` while its group 1 is already
bound faults in both domains. -/
theorem C6_bound_group_nonany_is_fault_witness :
    (Pattern.mk PatternKind.Constant 0 (some 5) [] 1).matches
        (.Literal .Number 5) plainDialect []
        [(1, Expression.Literal .Number 5)]
      = .error .groupRepetitionNonAny ∧
    (PatternEWasm.mk PatternKind.Constant "" (some 5) [] 1).matches
        (.Literal .Number 5) plainDialect []
        [(1, Expression.Literal .Number 5)]
      = .error .groupRepetitionNonAny := by
  have h5 : u256parse 5 = 5 := by norm_num [u256parse]
  have h := C6_bound_group_nonany_is_fault PatternKind.Constant 0 "" (some 5)
    (some 5) [] [] 1 (.Literal .Number 5) (.Literal .Number 5)
    (.Literal .Number 5) plainDialect []
    [(1, Expression.Literal .Number 5)] [(1, Expression.Literal .Number 5)]
    [(1, Expression.Literal .Number 5)] [(1, Expression.Literal .Number 5)]
    (by simp) (by simp)
  refine ⟨h.1 ?_ rfl, h.2 ?_ rfl⟩
  · simp [Pattern.matches, Pattern.structuralMatches.eq_def, substituted, h5]
  · simp [PatternEWasm.matches, PatternEWasm.structuralMatches.eq_def,
      substituted, h5, toUInt64]

/-- C9: a pattern with a live (bound) match group reconstructs, via
`toExpression`, the deep copy of the bound expression, and the copy is
structurally equal to the bound expression; in particular the round trip
match-then-reconstruct over a wildcard group reproduces the matched
sub-expression verbatim. -/
theorem C9_to_expression_round_trip (k : PatternKind) (i i2 : Instruction)
    (dta dta2 : Option Nat) (args : List Pattern) (g g2 : Nat)
    (fm e : Expression) (groups groups2 gs : MatchGroups)
    (names : Instruction → String) (d : Dialect) (ssa : SSAMap) :
    (g ≠ 0 → groups.lookup g = some fm →
      (Pattern.mk k i dta args g).toExpression groups names
        = .ok (ASTCopier.translate fm) ∧ ASTCopier.translate fm = fm) ∧
    (g2 ≠ 0 → groups2.lookup g2 = none →
      (Pattern.mk PatternKind.Any i2 dta2 [] g2).matches e d ssa groups2
        = .ok (true, gs) →
      (Pattern.mk PatternKind.Any i2 dta2 [] g2).toExpression gs names
        = .ok e) := by
  constructor
  · intro hg hb
    refine ⟨?_, rfl⟩
    cases g with
    | zero => exact absurd rfl hg
    | succ gp =>
      simp [Pattern.toExpression.eq_def, Pattern.matchGroupValue,
        Pattern.matchGroup, Except.map, hb]
  · intro hg2 hub hm
    have hgs : gs = (g2, e) :: groups2 := by
      simp [Pattern.matches, Pattern.structuralMatches.eq_def, hg2, hub] at hm
      exact hm.symm
    subst hgs
    cases g2 with
    | zero => exact absurd rfl hg2
    | succ gp =>
      simp [Pattern.toExpression.eq_def, Pattern.matchGroupValue,
        Pattern.matchGroup, List.lookup, Except.map, ASTCopier.translate]

/-- Witness for C9 at concrete inputs: reconstruction from a bound group,
and the full match-then-reconstruct round trip over a wildcard group. -/
theorem C9_to_expression_round_trip_witness :
    (Pattern.mk PatternKind.Any 0 none [] 2).toExpression
        [(2, Expression.Identifier "q")] (fun _ => "")
      = .ok (.Identifier "q") ∧
    (Pattern.mk PatternKind.Any 0 none [] 4).matches (.Identifier "r")
        plainDialect [] [] = .ok (true, [(4, Expression.Identifier "r")]) ∧
    (Pattern.mk PatternKind.Any 0 none [] 4).toExpression
        [(4, Expression.Identifier "r")] (fun _ => "")
      = .ok (.Identifier "r") := by
  have h1 := C9_to_expression_round_trip PatternKind.Any 0 0 none none [] 2 4
    (.Identifier "q") (.Identifier "r") [(2, Expression.Identifier "q")] []
    [(4, Expression.Identifier "r")] (fun _ => "") plainDialect []
  have hmatch : (Pattern.mk PatternKind.Any 0 none [] 4).matches
      (.Identifier "r") plainDialect [] []
      = .ok (true, [(4, Expression.Identifier "r")]) := by
    simp [Pattern.matches, Pattern.structuralMatches.eq_def]
  refine ⟨?_, hmatch, h1.2 (by simp) rfl hmatch⟩
  have := (h1.1 (by simp) rfl).1
  rwa [(h1.1 (by simp) rfl).2] at this

/-- The rule loop returns the first rule of the bucket accepted by
`ruleAccepts`, provided no rule in the bucket faults during matching. -/
theorem findFirstMatchList_eq_find (e : Expression) (d : Dialect)
    (ssa : SSAMap) :
    ∀ rs : List (SimplificationRule Pattern),
      (∀ r ∈ rs, ∃ out, r.pattern.matches e d ssa [] = .ok out) →
      findFirstMatchList rs e d ssa
        = .ok (rs.find? (fun r => ruleAccepts r e d ssa))
  | [], _ => by simp [findFirstMatchList]
  | r :: rest, h => by
    obtain ⟨⟨b, gr⟩, hout⟩ := h r (List.mem_cons_self r rest)
    have ih := findFirstMatchList_eq_find e d ssa rest
      (fun r' hr' => h r' (List.mem_cons_of_mem r hr'))
    have haccept : ruleAccepts r e d ssa
        = (b && feasibleHolds r gr) := by
      unfold ruleAccepts
      rw [hout]
      cases b <;> simp
    rw [findFirstMatchList.eq_def]
    simp only [hout]
    cases b with
    | false =>
      simp only [List.find?, haccept]
      simpa using ih
    | true =>
      cases hf : feasibleHolds r gr with
      | false =>
        simp only [List.find?, haccept, hf]
        simpa [hf] using ih
      | true =>
        simp [List.find?, haccept, hf]

/-- The eWasm rule loop returns the first rule of the bucket accepted by
`ruleAcceptsEWasm`, provided no rule in the bucket faults during
matching. -/
theorem findFirstMatchListEWasm_eq_find (e : Expression) (d : Dialect)
    (ssa : SSAMap) :
    ∀ rs : List (SimplificationRule PatternEWasm),
      (∀ r ∈ rs, ∃ out, r.pattern.matches e d ssa [] = .ok out) →
      findFirstMatchListEWasm rs e d ssa
        = .ok (rs.find? (fun r => ruleAcceptsEWasm r e d ssa))
  | [], _ => by simp [findFirstMatchListEWasm]
  | r :: rest, h => by
    obtain ⟨⟨b, gr⟩, hout⟩ := h r (List.mem_cons_self r rest)
    have ih := findFirstMatchListEWasm_eq_find e d ssa rest
      (fun r' hr' => h r' (List.mem_cons_of_mem r hr'))
    have haccept : ruleAcceptsEWasm r e d ssa
        = (b && feasibleHolds r gr) := by
      unfold ruleAcceptsEWasm
      rw [hout]
      cases b <;> simp
    rw [findFirstMatchListEWasm.eq_def]
    simp only [hout]
    cases b with
    | false =>
      simp only [List.find?, haccept]
      simpa using ih
    | true =>
      cases hf : feasibleHolds r gr with
      | false =>
        simp only [List.find?, haccept, hf]
        simpa [hf] using ih
      | true =>
        simp [List.find?, haccept, hf]

/-- In a list split as `l1 ++ r :: l2` where nothing in `l1` satisfies the
predicate and `r` does, `find?` returns `r`. -/
theorem find_first_in_middle {α : Type} (p : α → Bool) :
    ∀ (l1 : List α) (r : α) (l2 : List α),
      (∀ x ∈ l1, p x = false) → p r = true →
      (l1 ++ r :: l2).find? p = some r
  | [], r, l2, _, hr => by simp [List.find?, hr]
  | x :: xs, r, l2, h, hr => by
    have hx := h x (List.mem_cons_self x xs)
    simp only [List.cons_append, List.find?, hx]
    exact find_first_in_middle p xs r l2
      (fun y hy => h y (List.mem_cons_of_mem x hy)) hr

/-- C1: for an expression whose leading operator resolves, and whose
bucket faults on no rule, `findFirstMatch` scans that operator's bucket
in insertion order with a fresh match-group table per rule, returning the
first rule that structurally matches and is feasible; in particular when
a rule registered earlier and one registered later both accept, the
earlier one is returned, and a rule with no feasibility predicate is
accepted on structural match alone. -/
theorem C1_first_match_in_insertion_order (s : SimplificationRules)
    (e : Expression) (d : Dialect) (ssa : SSAMap) (i : Instruction)
    (eargs : List Expression) (hinit : s.isInitialized = true)
    (hres : instructionAndArguments d e = some (i, eargs))
    (hok : ∀ r ∈ s.m_rules (i % 256),
      ∃ out, r.pattern.matches e d ssa [] = .ok out) :
    s.findFirstMatch e d ssa
      = .ok ((s.m_rules (i % 256)).find? (fun r => ruleAccepts r e d ssa)) ∧
    (∀ rs1 r rs2, s.m_rules (i % 256) = rs1 ++ r :: rs2 →
      (∀ r' ∈ rs1, ruleAccepts r' e d ssa = false) →
      ruleAccepts r e d ssa = true →
      s.findFirstMatch e d ssa = .ok (some r)) ∧
    (∀ (r : SimplificationRule Pattern) (gs : MatchGroups),
      r.feasible = none → feasibleHolds r gs = true) ∧
    (∀ (nm : String) (eargs2 : List Expression),
      d.builtin nm = true →
      (∀ r ∈ s.m_rulesEWasm nm,
        ∃ out, r.pattern.matches (.FunctionCall nm eargs2) d ssa [] = .ok out) →
      s.findFirstMatchEWasm (.FunctionCall nm eargs2) d ssa
        = .ok ((s.m_rulesEWasm nm).find?
            (fun r => ruleAcceptsEWasm r (.FunctionCall nm eargs2) d ssa))) := by
  have hmain : s.findFirstMatch e d ssa
      = .ok ((s.m_rules (i % 256)).find? (fun r => ruleAccepts r e d ssa)) := by
    unfold SimplificationRules.findFirstMatch
    rw [hinit, hres]
    simpa using findFirstMatchList_eq_find e d ssa (s.m_rules (i % 256)) hok
  refine ⟨hmain, ?_, ?_, ?_⟩
  · intro rs1 r rs2 hsplit hno hyes
    rw [hmain, hsplit, find_first_in_middle _ rs1 r rs2 hno hyes]
  · intro r gs hnone
    simp [feasibleHolds, hnone]
  · intro nm eargs2 hb hok2
    unfold SimplificationRules.findFirstMatchEWasm
    rw [hinit]
    simp only [Bool.not_true, Bool.false_eq_true, if_false, hb, if_true]
    exact findFirstMatchListEWasm_eq_find (.FunctionCall nm eargs2) d ssa
      (s.m_rulesEWasm nm) hok2

/-- Witness for C1 at concrete inputs: with two rules over the same `ADD`
pattern registered in order, both accepting, the engine returns the one
registered first (which has no feasibility predicate). -/
theorem C1_first_match_in_insertion_order_witness :
    twoRuleState.findFirstMatch
        (.FunctionalInstruction ADDopcode [.Identifier "a", .Identifier "b"])
        allBuiltinDialect []
      = .ok (some ruleNoFeasible) ∧
    twoRuleState.findFirstMatchEWasm (.FunctionCall "g" [])
        allBuiltinDialect [] = .ok none := by
  have hmatch : addAnyAnyPat.matches
      (.FunctionalInstruction ADDopcode [.Identifier "a", .Identifier "b"])
      allBuiltinDialect [] [] = .ok (true, []) := by
    simp [addAnyAnyPat, anyPat, Pattern.matches, Pattern.structuralMatches.eq_def,
      Pattern.matchesList, substituted, instructionAndArguments, ADDopcode]
  have h := C1_first_match_in_insertion_order twoRuleState
    (.FunctionalInstruction ADDopcode [.Identifier "a", .Identifier "b"])
    allBuiltinDialect [] ADDopcode [.Identifier "a", .Identifier "b"]
    (by simp [twoRuleState, SimplificationRules.isInitialized]) rfl ?_
  · refine ⟨h.2.1 [] ruleNoFeasible [ruleAlwaysFeasible] ?_ ?_ ?_, ?_⟩
    · simp [twoRuleState, ADDopcode]
    · intro r' hr'
      simp at hr'
    · simp [ruleAccepts, ruleNoFeasible, hmatch, feasibleHolds]
    · have h4 := h.2.2.2 "g" [] rfl ?_
      · simpa [twoRuleState] using h4
      · intro r hr
        simp [twoRuleState] at hr
  · intro r hr
    simp [twoRuleState, ADDopcode] at hr
    rcases hr with rfl | rfl
    · exact ⟨(true, []), by simpa [ruleNoFeasible] using hmatch⟩
    · exact ⟨(true, []), by simpa [ruleAlwaysFeasible] using hmatch⟩

/-- A rule returned by the eWasm rule loop is a member of the scanned
bucket. -/
theorem mem_of_findFirstMatchListEWasm (e : Expression) (d : Dialect)
    (ssa : SSAMap) :
    ∀ (rs : List (SimplificationRule PatternEWasm))
      (r : SimplificationRule PatternEWasm),
      findFirstMatchListEWasm rs e d ssa = .ok (some r) → r ∈ rs
  | [], r, h => by simp [findFirstMatchListEWasm] at h
  | r' :: rest, r, h => by
    simp only [findFirstMatchListEWasm] at h
    cases hm : r'.pattern.matches e d ssa [] with
    | error f =>
      rw [hm] at h
      exact absurd h (by simp)
    | ok bg =>
      obtain ⟨b, gr⟩ := bg
      rw [hm] at h
      cases b with
      | false =>
        simp only [Bool.false_eq_true, if_false] at h
        exact List.mem_cons_of_mem r'
          (mem_of_findFirstMatchListEWasm e d ssa rest r h)
      | true =>
        cases hf : feasibleHolds r' gr with
        | false =>
          simp only [hf, Bool.false_eq_true, if_false, if_true] at h
          exact List.mem_cons_of_mem r'
            (mem_of_findFirstMatchListEWasm e d ssa rest r h)
        | true =>
          simp only [hf, if_true] at h
          cases h
          exact List.mem_cons_self r' rest

/-- C10: an eWasm rule whose pattern's builtin name is empty is silently
dropped by `addRule` (the engine state is unchanged, with no error);
consequently a table built only through `addRule` never holds a rule with
an empty builtin name and `findFirstMatchEWasm` can never return one —
exactly the fate of every shared rule-list identity rooted at an operator
that `EWasmBuiltins` maps to the empty name. -/
theorem C10_empty_builtin_rule_silently_dropped (s s2 : SimplificationRules)
    (r r2 r3 : SimplificationRule PatternEWasm) (e : Expression)
    (d : Dialect) (ssa : SSAMap) :
    (r.pattern.kind = PatternKind.Operation → r.pattern.instr = "" →
      s.addRuleEWasm r = .ok s) ∧
    ((∀ nm, ∀ r' ∈ s.m_rulesEWasm nm, r'.pattern.instr ≠ "") →
      s.addRuleEWasm r2 = .ok s2 →
      ∀ nm, ∀ r' ∈ s2.m_rulesEWasm nm, r'.pattern.instr ≠ "") ∧
    ((∀ nm, ∀ r' ∈ s.m_rulesEWasm nm, r'.pattern.instr ≠ "") →
      s.findFirstMatchEWasm e d ssa = .ok (some r3) →
      r3.pattern.instr ≠ "") ∧
    (EWasmBuiltins.SDIV = "" ∧ EWasmBuiltins.SMOD = "" ∧
     EWasmBuiltins.EXP = "" ∧ EWasmBuiltins.NOT = "" ∧
     EWasmBuiltins.SLT = "" ∧ EWasmBuiltins.SGT = "" ∧
     EWasmBuiltins.BYTE = "" ∧ EWasmBuiltins.ADDMOD = "" ∧
     EWasmBuiltins.MULMOD = "" ∧ EWasmBuiltins.SIGNEXTEND = "" ∧
     EWasmBuiltins.ADDRESS = "" ∧ EWasmBuiltins.CALLER = "" ∧
     EWasmBuiltins.ORIGIN = "" ∧ EWasmBuiltins.COINBASE = "") := by
  refine ⟨?_, ?_, ?_, ?_⟩
  · intro hk hn
    have hemp : String.isEmpty "" = true := by decide
    simp [SimplificationRules.addRuleEWasm, PatternEWasm.builtin, hk, hn, hemp]
  · intro hinv hadd nm r' hmem
    unfold SimplificationRules.addRuleEWasm at hadd
    cases hbi : r2.pattern.builtin with
    | error f =>
      rw [hbi] at hadd
      exact absurd hadd (by simp)
    | ok b =>
      rw [hbi] at hadd
      have hbname : r2.pattern.instr = b := by
        unfold PatternEWasm.builtin at hbi
        by_cases hop : r2.pattern.kind = PatternKind.Operation
        · simpa [hop] using hbi
        · simp [hop] at hbi
      by_cases hempty : b.isEmpty = true
      · simp only [hempty, if_true] at hadd
        have hss : s = s2 := by simpa using hadd
        subst hss
        exact hinv nm r' hmem
      · simp only [hempty, Bool.false_eq_true, if_false] at hadd
        have hs2 := (Except.ok.inj hadd).symm
        subst hs2
        simp only at hmem
        by_cases hnm : nm = b
        · subst hnm
          rw [if_pos rfl] at hmem
          rcases List.mem_append.1 hmem with hold | hnew
          · exact hinv nm r' hold
          · have hrr : r' = r2 := by simpa using hnew
            subst hrr
            rw [hbname]
            intro hcontra
            rw [hcontra] at hempty
            exact hempty rfl
        · rw [if_neg hnm] at hmem
          exact hinv nm r' hmem
  · intro hinv hfind
    unfold SimplificationRules.findFirstMatchEWasm at hfind
    cases hinit : s.isInitialized with
    | false =>
      rw [hinit] at hfind
      exact absurd hfind (by simp)
    | true =>
      rw [hinit] at hfind
      cases e with
      | FunctionCall nm as =>
        by_cases hb : d.builtin nm = true
        · simp only [Bool.not_true, Bool.false_eq_true, if_false, hb,
            if_true] at hfind
          exact hinv nm r3
            (mem_of_findFirstMatchListEWasm (.FunctionCall nm as) d ssa
              (s.m_rulesEWasm nm) r3 hfind)
        · simp [hb] at hfind
      | FunctionalInstruction a bs => simp at hfind
      | Identifier n => simp at hfind
      | Literal k v => simp at hfind
  · exact ⟨rfl, rfl, rfl, rfl, rfl, rfl, rfl, rfl, rfl, rfl, rfl, rfl, rfl,
      rfl⟩

/-- Witness for C10 at concrete inputs: registering a rule whose builtin
name is `EWasmBuiltins.SDIV` (the empty string) leaves the engine state
untouched, while a rule over the non-empty builtin `i64.add` is found and
returned, and its name is indeed non-empty. -/
theorem C10_empty_builtin_rule_silently_dropped_witness :
    twoRuleState.addRuleEWasm emptyNameEWasmRule = .ok twoRuleState ∧
    eWasmState.findFirstMatchEWasm (.FunctionCall "i64.add" [])
        allBuiltinDialect [] = .ok (some eWasmAddRule) ∧
    eWasmAddRule.pattern.instr ≠ "" := by
  have hfind : eWasmState.findFirstMatchEWasm (.FunctionCall "i64.add" [])
      allBuiltinDialect [] = .ok (some eWasmAddRule) := by
    simp [eWasmState, twoRuleState, SimplificationRules.findFirstMatchEWasm,
      SimplificationRules.isInitialized, findFirstMatchListEWasm,
      eWasmAddRule, PatternEWasm.matches, PatternEWasm.structuralMatches.eq_def,
      PatternEWasm.matchesList, substituted, allBuiltinDialect, feasibleHolds,
      ADDopcode]
  have h := C10_empty_builtin_rule_silently_dropped twoRuleState twoRuleState
    emptyNameEWasmRule emptyNameEWasmRule eWasmAddRule
    (.FunctionCall "i64.add" []) allBuiltinDialect []
  have h3 := C10_empty_builtin_rule_silently_dropped eWasmState eWasmState
    emptyNameEWasmRule emptyNameEWasmRule eWasmAddRule
    (.FunctionCall "i64.add" []) allBuiltinDialect []
  refine ⟨h.1 rfl rfl, hfind, h3.2.2.1 ?_ hfind⟩
  intro nm r' hmem
  by_cases hn : nm = "i64.add"
  · subst hn
    simp [eWasmState] at hmem
    subst hmem
    simp [eWasmAddRule, PatternEWasm.instr]
  · simp [eWasmState, hn] at hmem

end YulSimp
